import Mathlib

/-!
Shallow embedding of src/AI/VCAI/Behaviors/CaptureObjectsBehavior.cpp
(VCMI engine, VCAI Nullkiller behaviors).

External collaborators (pathfinder, danger hit map, hero manager, game
callback, object clusterizer) are modelled as function-valued fields of an
environment record `Env`; the functions of this file translate the control
flow of the C++ source line by line.  Movement costs (C++ float) are
modelled as rationals.
-/

namespace VCMI

/-- Hero roles as returned by the hero manager collaborator
(only SCOUT is distinguished by the source; every other role is MAIN). -/
inductive HeroRole where
  | SCOUT
  | MAIN
deriving DecidableEq

/-- Resource vector (TResources).  The source reads GOLD and GEMS by name
and compares whole vectors through canAfford. -/
structure TResources where
  wood : Int
  mercury : Int
  ore : Int
  sulfur : Int
  crystal : Int
  gems : Int
  gold : Int
deriving DecidableEq

/-- TResources::canAfford: componentwise comparison of a price against the
current stockpile. -/
def TResources.canAfford (mine price : TResources) : Bool :=
  decide (price.wood ≤ mine.wood) && decide (price.mercury ≤ mine.mercury) &&
  decide (price.ore ≤ mine.ore) && decide (price.sulfur ≤ mine.sulfur) &&
  decide (price.crystal ≤ mine.crystal) && decide (price.gems ≤ mine.gems) &&
  decide (price.gold ≤ mine.gold)

/-- Creature type sitting in an army slot; the source only inspects
type->upgrades (and, for dwellings, the creature id). -/
structure CreatureType where
  upgrades : List Nat

/-- Hero (CGHeroInstance as seen through HeroPtr).  getSlotFor models
h->getSlotFor(CreatureID(c)) != SlotID(): whether a slot is available for a
given creature id. -/
structure Hero where
  id : Nat
  tempOwner : Nat
  level : Nat
  mana : Int
  manaLimit : Int
  slots : List CreatureType
  getSlotFor : Nat → Bool

/-- Object type tags appearing in the switch of
CaptureObjectsBehavior::shouldVisit; OTHER covers every other Obj id. -/
inductive ObjTag where
  | TOWN
  | HERO
  | BORDER_GATE
  | BORDERGUARD
  | SEER_HUT
  | QUEST_GUARD
  | CREATURE_GENERATOR1
  | HILL_FORT
  | MONOLITH_ONE_WAY_ENTRANCE
  | MONOLITH_ONE_WAY_EXIT
  | MONOLITH_TWO_WAY
  | WHIRLPOOL
  | SCHOOL_OF_MAGIC
  | SCHOOL_OF_WAR
  | LIBRARY_OF_ENLIGHTENMENT
  | TREE_OF_KNOWLEDGE
  | MAGIC_WELL
  | PRISON
  | TAVERN
  | BOAT
  | EYE_OF_MAGI
  | OTHER (num : Nat)
deriving DecidableEq

/-- Map object (CGObjectInstance).  `id` models the object's identity
(pointer identity in the C++ source).  The type-specific payloads read
through dynamic_cast are carried as ordinary fields:
`wasMyColorVisited` for CGKeys, `dwellingCreatures` for CGDwelling
(pairs of level number and creature ids), `visitedBy` for
obj->wasVisited(hero). -/
structure CGObjectInstance where
  id : Nat
  ID : ObjTag
  subID : Int
  tempOwner : Nat
  pos : Nat
  wasMyColorVisited : Nat → Bool
  dwellingCreatures : List (Nat × List Nat)
  visitedBy : Nat → Bool

/-- Pointer identity of objects, as used by vstd::contains on
vector<const CGObjectInstance*>. -/
instance : BEq CGObjectInstance := ⟨fun a b => a.id == b.id⟩

/-- Active quest as returned by ai->myCb->getMyQuests(): the guarded object
and the quest's completion predicate (q.quest->checkQuest(h)). -/
structure Quest where
  objId : Nat
  checkQuest : Hero → Bool

/-- Candidate path produced by the pathfinder (AIPath).  A blocked final
step is the id of its special action (decomposed through the
environment). -/
structure AIPath where
  targetHero : Hero
  heroArmy : Nat
  totalDanger : Nat
  exchangeCount : Nat
  movementCost : ℚ
  firstBlockedAction : Option Nat

/-- Goal variants produced by this behavior: Invalid, ExecuteHeroChain
(a route to an object carrying the closeness ratio used for ranking), and
Composition (route first, then the sub-goal resolving the blocking
action). -/
inductive Goal where
  | Invalid : Goal
  | ExecuteHeroChain (path : AIPath) (target : Option CGObjectInstance) (ratioVal : ℚ) : Goal
  | Composition (chainPath : AIPath) (chainTarget : Option CGObjectInstance) (sub : Goal) : Goal

/-- TSubgoal::invalid(). -/
def Goal.isInvalid : Goal → Bool
  | .Invalid => true
  | _ => false

/-- Environment of external collaborators read by the behavior.  Each field
models one call site of the C++ source. -/
structure Env where
  playerID : Nat
  myQuests : List Quest
  resources : TResources
  creatureCost : Nat → TResources
  heroesInfoCount : Nat
  maxHeroesOnMapPerPlayer : Nat
  heroGoldCost : Int
  heroRole : Hero → HeroRole
  enemyCanKill : AIPath → Bool
  isSafeToVisit : Hero → Nat → Nat → Bool
  arePathHeroesLocked : AIPath → Bool
  actionDecompose : Nat → Hero → Goal
  getPathInfo : Nat → List AIPath
  nearbyObjects : List CGObjectInstance
  farObjects : List CGObjectInstance

/-- Replace the safety policy collaborator, leaving every other
collaborator untouched (used to state that a code path never consults
isSafeToVisit). -/
def Env.withSafe (env : Env) (f : Hero → Nat → Nat → Bool) : Env :=
  { env with isSafeToVisit := f }

/-- The switch of CaptureObjectsBehavior::shouldVisit.  `some b` models an
early return of b from a case; `none` models a break (fall through to the
final wasVisited check) or the absence of a matching case. -/
def shouldVisitSwitch (env : Env) (h : Hero) (obj : CGObjectInstance) : Option Bool :=
  match obj.ID with
  | .TOWN => some (obj.tempOwner != h.tempOwner)
  | .HERO => some (obj.tempOwner != h.tempOwner)
  | .BORDER_GATE =>
    some (!(env.myQuests.any (fun q => q.objId == obj.id)))
  | .BORDERGUARD =>
    some (obj.wasMyColorVisited env.playerID)
  | .SEER_HUT =>
    some (match env.myQuests.find? (fun q => q.objId == obj.id) with
          | some q => q.checkQuest h
          | none => true)
  | .QUEST_GUARD =>
    some (match env.myQuests.find? (fun q => q.objId == obj.id) with
          | some q => q.checkQuest h
          | none => true)
  | .CREATURE_GENERATOR1 =>
    if obj.tempOwner != h.tempOwner then some true
    else some (obj.dwellingCreatures.any (fun lvl =>
      lvl.2.any (fun c =>
        decide (lvl.1 ≠ 0) && h.getSlotFor c &&
          TResources.canAfford env.resources (env.creatureCost c))))
  | .HILL_FORT =>
    some (h.slots.any (fun s => !s.upgrades.isEmpty))
  | .MONOLITH_ONE_WAY_ENTRANCE => some false
  | .MONOLITH_ONE_WAY_EXIT => some false
  | .MONOLITH_TWO_WAY => some false
  | .WHIRLPOOL => some false
  | .SCHOOL_OF_MAGIC =>
    if env.resources.gold < 1000 then some false else none
  | .SCHOOL_OF_WAR =>
    if env.resources.gold < 1000 then some false else none
  | .LIBRARY_OF_ENLIGHTENMENT =>
    if h.level < 12 then some false else none
  | .TREE_OF_KNOWLEDGE =>
    if env.heroRole h = HeroRole.SCOUT then some false
    else if env.resources.gold < 2000 ∨ env.resources.gems < 10 then some false
    else none
  | .MAGIC_WELL => some (decide (h.mana < h.manaLimit))
  | .PRISON => some (decide (env.heroesInfoCount < env.maxHeroesOnMapPerPlayer))
  | .TAVERN =>
    if env.heroesInfoCount ≥ env.maxHeroesOnMapPerPlayer then some false
    else if env.resources.gold < env.heroGoldCost then some false
    else none
  | .BOAT => some false
  | .EYE_OF_MAGI => some false
  | .OTHER _ => none

/-- CaptureObjectsBehavior::shouldVisit: the switch, then the final
obj->wasVisited(*h) check reached on break or on an unmatched type. -/
def shouldVisit (env : Env) (h : Hero) (obj : CGObjectInstance) : Bool :=
  match shouldVisitSwitch env h obj with
  | some b => b
  | none => !(obj.visitedBy h.id)

/-- Condition of `if(objToVisit && !shouldVisit(path.targetHero, objToVisit))`. -/
def objGateFails (env : Env) (objToVisit : Option CGObjectInstance) (path : AIPath) : Bool :=
  match objToVisit with
  | some o => !(shouldVisit env path.targetHero o)
  | none => false

/-- Intermediate state of one task slot of the getVisitGoals loop:
still Invalid, already holding a Composition, or an accepted non-locked
route whose closestWayRatio is assigned after the loop. -/
inductive Slot where
  | inv : Slot
  | comp (g : Goal) : Slot
  | way (p : AIPath) : Slot

/-- Body of the getVisitGoals loop, task-slot component: what ends up in
tasks for one path. -/
def pathSlot (env : Env) (objToVisit : Option CGObjectInstance) (path : AIPath) : Slot :=
  if env.enemyCanKill path then .inv
  else if objGateFails env objToVisit path then .inv
  else if env.heroRole path.targetHero = HeroRole.SCOUT ∧ path.totalDanger = 0 ∧ path.exchangeCount > 1 then .inv
  else
    match path.firstBlockedAction with
    | some act =>
      if (env.actionDecompose act path.targetHero).isInvalid then .inv
      else .comp (Goal.Composition path objToVisit (env.actionDecompose act path.targetHero))
    | none =>
      if env.isSafeToVisit path.targetHero path.heroArmy path.totalDanger then
        if env.arePathHeroesLocked path then .inv else .way path
      else .inv

/-- Body of the getVisitGoals loop, closestWay component: whether this path
reaches `if(isSafe)` with isSafe true and hence updates closestWay
(independently of the lock check). -/
def pathAccepted (env : Env) (objToVisit : Option CGObjectInstance) (path : AIPath) : Bool :=
  if env.enemyCanKill path then false
  else if objGateFails env objToVisit path then false
  else if env.heroRole path.targetHero = HeroRole.SCOUT ∧ path.totalDanger = 0 ∧ path.exchangeCount > 1 then false
  else
    match path.firstBlockedAction with
    | some _ => false
    | none => env.isSafeToVisit path.targetHero path.heroArmy path.totalDanger

/-- Update of the closestWay pointer:
`if(!closestWay || closestWay->movementCost() > path.movementCost())`. -/
def updClosest (acc : Option AIPath) (p : AIPath) : Option AIPath :=
  match acc with
  | none => some p
  | some c => if c.movementCost > p.movementCost then some p else some c

/-- One loop iteration's effect on closestWay. -/
def closeStep (env : Env) (objToVisit : Option CGObjectInstance)
    (acc : Option AIPath) (p : AIPath) : Option AIPath :=
  if pathAccepted env objToVisit p then updClosest acc p else acc

/-- Value of closestWay after the whole loop. -/
def closestWayOf (env : Env) (objToVisit : Option CGObjectInstance)
    (paths : List AIPath) : Option AIPath :=
  paths.foldl (closeStep env objToVisit) none

/-- The ratio-assignment pass after the loop.  A `way` slot becomes an
ExecuteHeroChain whose closestWayRatio is
closestWay->movementCost() / way->getPath().movementCost().
The `none` branch of the match models the C++ null closestWay dereference;
it is proved unreachable for `way` slots (see closestWay_set_for_ways). -/
def finalizeSlot (objToVisit : Option CGObjectInstance) (closest : Option AIPath) :
    Slot → Goal
  | .inv => Goal.Invalid
  | .comp g => g
  | .way p =>
    match closest with
    | some c => Goal.ExecuteHeroChain p objToVisit (c.movementCost / p.movementCost)
    | none => Goal.ExecuteHeroChain p objToVisit 0

/-- CaptureObjectsBehavior::getVisitGoals. -/
def getVisitGoals (env : Env) (paths : List AIPath)
    (objToVisit : Option CGObjectInstance) : List Goal :=
  paths.map (fun p =>
    finalizeSlot objToVisit (closestWayOf env objToVisit paths) (pathSlot env objToVisit p))

/-- Behavior configuration: explicit object list, or type/subtype
filters. -/
structure CaptureObjectsBehavior where
  specificObjects : Bool
  objectsToCapture : List CGObjectInstance
  objectTypes : List ObjTag
  objectSubTypes : List Int

/-- vectorEquals of the source: vstd::contains_if(v1, contains(v2, ·)). -/
def vectorEquals {α : Type} [BEq α] (v1 v2 : List α) : Bool :=
  v1.any (fun o => v2.contains o)

/-- CaptureObjectsBehavior::operator==. -/
def behaviorEquals (a b : CaptureObjectsBehavior) : Bool :=
  if a.specificObjects != b.specificObjects then false
  else if a.specificObjects then vectorEquals a.objectsToCapture b.objectsToCapture
  else vectorEquals a.objectTypes b.objectTypes && vectorEquals a.objectSubTypes b.objectSubTypes

/-- CaptureObjectsBehavior::shouldVisitObject. -/
def shouldVisitObject (b : CaptureObjectsBehavior) (obj : CGObjectInstance) : Bool :=
  (b.objectTypes.isEmpty || decide (obj.ID ∈ b.objectTypes)) &&
  (b.objectSubTypes.isEmpty || decide (obj.subID ∈ b.objectSubTypes))

/-- The captureObjects lambda of CaptureObjectsBehavior::decompose: early
return on an empty pool, per-object scan concatenating getVisitGoals, then
vstd::erase_if of invalid tasks. -/
def captureObjects (env : Env) (b : CaptureObjectsBehavior)
    (objs : List CGObjectInstance) (tasks : List Goal) : List Goal :=
  if objs.isEmpty then tasks
  else
    (objs.foldl (fun acc obj =>
      if shouldVisitObject b obj then
        acc ++ getVisitGoals env (env.getPathInfo obj.pos) (some obj)
      else acc) tasks).filter (fun t => !t.isInvalid)

/-- CaptureObjectsBehavior::decompose. -/
def CaptureObjectsBehavior.decompose (env : Env) (b : CaptureObjectsBehavior) : List Goal :=
  if b.specificObjects then
    captureObjects env b b.objectsToCapture []
  else if (captureObjects env b env.nearbyObjects []).isEmpty then
    captureObjects env b env.farObjects (captureObjects env b env.nearbyObjects [])
  else
    captureObjects env b env.nearbyObjects []

/-! Concrete instances used to evaluate the definitions on explicit
inputs (counterexamples and witnesses). -/

/-- A plain object of a given identity and type tag. -/
def mkObj (i : Nat) (tag : ObjTag) : CGObjectInstance :=
  { id := i, ID := tag, subID := 0, tempOwner := 0, pos := 0,
    wasMyColorVisited := fun _ => false, dwellingCreatures := [],
    visitedBy := fun _ => false }

/-- A plain hero of a given identity. -/
def mkHero (i : Nat) : Hero :=
  { id := i, tempOwner := 0, level := 1, mana := 0, manaLimit := 10,
    slots := [], getSlotFor := fun _ => true }

/-- A comfortable stockpile. -/
def baseRes : TResources :=
  { wood := 100, mercury := 100, ore := 100, sulfur := 100, crystal := 100,
    gems := 100, gold := 10000 }

/-- A permissive environment: no danger, everything safe, nothing locked,
no quests, main-role heroes. -/
def baseEnv : Env :=
  { playerID := 0, myQuests := [], resources := baseRes,
    creatureCost := fun _ => { wood := 0, mercury := 0, ore := 0, sulfur := 0,
                               crystal := 0, gems := 0, gold := 0 },
    heroesInfoCount := 0, maxHeroesOnMapPerPlayer := 8, heroGoldCost := 2500,
    heroRole := fun _ => HeroRole.MAIN,
    enemyCanKill := fun _ => false,
    isSafeToVisit := fun _ _ _ => true,
    arePathHeroesLocked := fun _ => false,
    actionDecompose := fun _ _ => Goal.Invalid,
    getPathInfo := fun _ => [],
    nearbyObjects := [], farObjects := [] }

/-- A safe, unlocked, unblocked path of cost 2. -/
def wPath : AIPath :=
  { targetHero := mkHero 1, heroArmy := 0, totalDanger := 0,
    exchangeCount := 0, movementCost := 2, firstBlockedAction := none }

/-- Environment where paths with heroArmy 1 are locked. -/
def cEnv : Env :=
  { baseEnv with arePathHeroesLocked := fun p => p.heroArmy == 1 }

/-- Safe but locked path of cost 5 (the cheapest of its batch). -/
def cP1 : AIPath := { wPath with heroArmy := 1, movementCost := 5 }

/-- Safe unlocked path of cost 10. -/
def cP2 : AIPath := { wPath with heroArmy := 2, movementCost := 10 }

/-- Objects for the equality-operator evaluation. -/
def oA : CGObjectInstance := mkObj 1 (ObjTag.OTHER 0)

/-- Second object for the equality-operator evaluation. -/
def oB : CGObjectInstance := mkObj 2 (ObjTag.OTHER 0)

/-- Third object for the equality-operator evaluation. -/
def oC : CGObjectInstance := mkObj 3 (ObjTag.OTHER 0)

/-- Explicit-mode behavior over objects A and B. -/
def bX : CaptureObjectsBehavior :=
  { specificObjects := true, objectsToCapture := [oA, oB],
    objectTypes := [], objectSubTypes := [] }

/-- Explicit-mode behavior over objects B and C. -/
def bY : CaptureObjectsBehavior :=
  { specificObjects := true, objectsToCapture := [oB, oC],
    objectTypes := [], objectSubTypes := [] }

/-- Explicit-mode behavior over an empty object list. -/
def bEmptyList : CaptureObjectsBehavior :=
  { specificObjects := true, objectsToCapture := [],
    objectTypes := [], objectSubTypes := [] }

/-- A border-guard object whose matching keymaster tent was already
visited by every player (the key is unlocked). -/
def kObj : CGObjectInstance :=
  { mkObj 4 ObjTag.BORDERGUARD with wasMyColorVisited := fun _ => true }

/-- A quest guard object. -/
def qObj : CGObjectInstance := mkObj 5 ObjTag.QUEST_GUARD

/-- An active quest on qObj whose completion predicate fails. -/
def qQuest : Quest := { objId := 5, checkQuest := fun _ => false }

/-- Environment holding the active quest on qObj. -/
def qEnv : Env := { baseEnv with myQuests := [qQuest] }

/-- A tree of knowledge object. -/
def tObj : CGObjectInstance := mkObj 6 ObjTag.TREE_OF_KNOWLEDGE

/-- A visitable plain object (for the decompose witnesses). -/
def vObj : CGObjectInstance := mkObj 7 (ObjTag.OTHER 3)

/-- Environment whose nearby pool holds vObj and whose pathfinder returns
the single path wPath for every position. -/
def nEnv : Env :=
  { baseEnv with nearbyObjects := [vObj], getPathInfo := fun _ => [wPath] }

/-- Filtered-mode behavior with empty filters. -/
def bF : CaptureObjectsBehavior :=
  { specificObjects := false, objectsToCapture := [],
    objectTypes := [], objectSubTypes := [] }

/-- Environment classifying every hero as a scout. -/
def sEnv : Env := { baseEnv with heroRole := fun _ => HeroRole.SCOUT }

/-- A zero-danger path needing two exchanges. -/
def sPath : AIPath := { wPath with exchangeCount := 2 }

/-- Environment whose special actions decompose into a valid sub-goal. -/
def blkEnv : Env :=
  { baseEnv with actionDecompose := fun _ _ => Goal.ExecuteHeroChain wPath none 1 }

/-- A path whose final step carries blocking special action 3. -/
def blkPath : AIPath := { wPath with firstBlockedAction := some 3 }

/-! Helper lemmas about the closestWay fold. -/

/-- updClosest always produces a pointer. -/
lemma updClosest_some (acc : Option AIPath) (p : AIPath) :
    ∃ r, updClosest acc p = some r := by
  cases acc with
  | none => exact ⟨p, rfl⟩
  | some c =>
    by_cases hgt : c.movementCost > p.movementCost
    · exact ⟨p, by simp only [updClosest]; rw [if_pos hgt]⟩
    · exact ⟨c, by simp only [updClosest]; rw [if_neg hgt]⟩

/-- Characterization of one updClosest step: the new pointer is at most as
expensive as the new path and as the previous pointer, and is one of the
two. -/
lemma updClosest_eq_some (acc : Option AIPath) (p : AIPath) (r : AIPath)
    (h : updClosest acc p = some r) :
    r.movementCost ≤ p.movementCost ∧
    (∀ a, acc = some a → r.movementCost ≤ a.movementCost) ∧
    (r = p ∨ acc = some r) := by
  cases acc with
  | none =>
    unfold updClosest at h
    injection h with h
    subst h
    refine ⟨le_refl _, ?_, Or.inl rfl⟩
    intro a ha
    cases ha
  | some c =>
    simp only [updClosest] at h
    by_cases hgt : c.movementCost > p.movementCost
    · rw [if_pos hgt] at h
      injection h with h
      subst h
      refine ⟨le_refl _, ?_, Or.inl rfl⟩
      intro a ha
      injection ha with ha
      subst ha
      exact le_of_lt hgt
    · rw [if_neg hgt] at h
      injection h with h
      subst h
      refine ⟨not_lt.mp hgt, ?_, Or.inr rfl⟩
      intro a ha
      injection ha with ha
      subst ha
      exact le_refl _

/-- Folding closeStep from a set pointer keeps the pointer set. -/
lemma foldl_closeStep_some (env : Env) (objToVisit : Option CGObjectInstance) :
    ∀ (paths : List AIPath) (x : AIPath),
      ∃ c, paths.foldl (closeStep env objToVisit) (some x) = some c := by
  intro paths
  induction paths with
  | nil => exact fun x => ⟨x, rfl⟩
  | cons p rest ih =>
    intro x
    rw [List.foldl_cons]
    unfold closeStep
    split
    · obtain ⟨r, hr⟩ := updClosest_some (some x) p
      rw [hr]
      exact ih r
    · exact ih x

/-- If any accepted path is in the batch, the fold ends with a set
pointer. -/
lemma foldl_closeStep_mem_some (env : Env) (objToVisit : Option CGObjectInstance) :
    ∀ (paths : List AIPath) (acc : Option AIPath) (p : AIPath), p ∈ paths →
      pathAccepted env objToVisit p = true →
      ∃ c, paths.foldl (closeStep env objToVisit) acc = some c := by
  intro paths
  induction paths with
  | nil =>
    intro acc p hp
    exact absurd hp (List.not_mem_nil p)
  | cons q rest ih =>
    intro acc p hp hacc
    rw [List.foldl_cons]
    rcases List.mem_cons.mp hp with heq | hmem
    · subst heq
      unfold closeStep
      rw [if_pos hacc]
      obtain ⟨r, hr⟩ := updClosest_some acc p
      rw [hr]
      exact foldl_closeStep_some env objToVisit rest r
    · exact ih (closeStep env objToVisit acc q) p hmem hacc

/-- Minimality invariant of the closestWay fold: the final pointer comes
from the initial accumulator or an accepted path of the batch, and its
movement cost is a lower bound of the accumulator's and of every accepted
path's. -/
lemma foldl_closeStep_min (env : Env) (objToVisit : Option CGObjectInstance) :
    ∀ (paths : List AIPath) (acc : Option AIPath) (c : AIPath),
      paths.foldl (closeStep env objToVisit) acc = some c →
      (acc = some c ∨ (c ∈ paths ∧ pathAccepted env objToVisit c = true)) ∧
      (∀ a, acc = some a → c.movementCost ≤ a.movementCost) ∧
      (∀ q ∈ paths, pathAccepted env objToVisit q = true →
        c.movementCost ≤ q.movementCost) := by
  intro paths
  induction paths with
  | nil =>
    intro acc c h
    rw [List.foldl_nil] at h
    refine ⟨Or.inl h, ?_, ?_⟩
    · intro a ha
      rw [h] at ha
      injection ha with ha
      subst ha
      exact le_refl _
    · intro q hq
      exact absurd hq (List.not_mem_nil q)
  | cons p rest ih =>
    intro acc c h
    rw [List.foldl_cons] at h
    obtain ⟨hA, hB, hC⟩ := ih (closeStep env objToVisit acc p) c h
    by_cases hacc : pathAccepted env objToVisit p = true
    · have hstep : closeStep env objToVisit acc p = updClosest acc p := by
        unfold closeStep
        exact if_pos hacc
      obtain ⟨r, hr⟩ := updClosest_some acc p
      obtain ⟨hr1, hr2, hr3⟩ := updClosest_eq_some acc p r hr
      rw [hstep, hr] at hA hB
      have hcr : c.movementCost ≤ r.movementCost := hB r rfl
      refine ⟨?_, ?_, ?_⟩
      · rcases hA with h1 | h1
        · injection h1 with h1
          subst h1
          rcases hr3 with h2 | h2
          · subst h2
            exact Or.inr ⟨List.mem_cons_self _ _, hacc⟩
          · exact Or.inl h2
        · exact Or.inr ⟨List.mem_cons_of_mem _ h1.1, h1.2⟩
      · intro a ha
        exact le_trans hcr (hr2 a ha)
      · intro q hq hq2
        rcases List.mem_cons.mp hq with h1 | h1
        · subst h1
          exact le_trans hcr hr1
        · exact hC q h1 hq2
    · have hstep : closeStep env objToVisit acc p = acc := by
        unfold closeStep
        exact if_neg hacc
      rw [hstep] at hA hB
      refine ⟨?_, hB, ?_⟩
      · rcases hA with h1 | h1
        · exact Or.inl h1
        · exact Or.inr ⟨List.mem_cons_of_mem _ h1.1, h1.2⟩
      · intro q hq hq2
        rcases List.mem_cons.mp hq with h1 | h1
        · subst h1
          exact absurd hq2 hacc
        · exact hC q h1 hq2

/-! Inversion lemmas for the loop-body slots. -/

/-- A way slot stores exactly its own path, and that path was accepted by
the safety gate (hence updated closestWay). -/
lemma pathSlot_way (env : Env) (objToVisit : Option CGObjectInstance)
    (p q : AIPath) (h : pathSlot env objToVisit p = Slot.way q) :
    q = p ∧ pathAccepted env objToVisit p = true := by
  cases hact : p.firstBlockedAction with
  | some act =>
    simp only [pathSlot, hact] at h
    split_ifs at h <;> simp_all
  | none =>
    simp only [pathSlot, pathAccepted, hact] at h ⊢
    split_ifs at h ⊢ <;> simp_all

/-- A comp slot holds a Composition goal built from the path, the target
object and the decomposed sub-goal, and such a path was not accepted by
the safety gate. -/
lemma pathSlot_comp (env : Env) (objToVisit : Option CGObjectInstance)
    (p : AIPath) (g : Goal) (h : pathSlot env objToVisit p = Slot.comp g) :
    ∃ sub, g = Goal.Composition p objToVisit sub := by
  cases hact : p.firstBlockedAction with
  | none =>
    simp only [pathSlot, hact] at h
    split_ifs at h <;> simp_all
  | some act =>
    simp only [pathSlot, hact] at h
    split_ifs at h <;> simp_all
    exact ⟨env.actionDecompose act p.targetHero, h.symm⟩

/-- Any path whose final step is blocked never reaches the safety check, so
it never updates closestWay. -/
lemma pathAccepted_blocked (env : Env) (objToVisit : Option CGObjectInstance)
    (p : AIPath) (act : Nat) (hact : p.firstBlockedAction = some act) :
    pathAccepted env objToVisit p = false := by
  unfold pathAccepted
  split
  · rfl
  · split
    · rfl
    · split
      · rfl
      · rw [hact]

/-- The slot of a blocked path does not depend on the safety policy. -/
lemma pathSlot_blocked_safeIrrel (env : Env) (f : Hero → Nat → Nat → Bool)
    (objToVisit : Option CGObjectInstance) (p : AIPath) (act : Nat)
    (hact : p.firstBlockedAction = some act) :
    pathSlot (Env.withSafe env f) objToVisit p = pathSlot env objToVisit p := by
  simp only [pathSlot, Env.withSafe, hact]
  rfl

/-- Claim C10: whenever some task slot of a getVisitGoals batch is an
accepted non-locked route (a member of waysToVisitObj), the closestWay
pointer is set — every such route passed the safety gate, which updates
closestWay before the lock check — so the ratio-assignment loop never
dereferences a null closestWay, and each division's divisor (that route's
movement cost) is positive (given positive movement costs) and not smaller
than closestWay's cost. -/
theorem closestWay_set_for_ways (env : Env) (paths : List AIPath)
    (objToVisit : Option CGObjectInstance)
    (hpos : ∀ p ∈ paths, 0 < p.movementCost) :
    ∀ p ∈ paths, ∀ q, pathSlot env objToVisit p = Slot.way q →
      ∃ c, closestWayOf env objToVisit paths = some c ∧
        0 < q.movementCost ∧ c.movementCost ≤ q.movementCost := by
  intro p hp q hslot
  obtain ⟨hqp, hacc⟩ := pathSlot_way env objToVisit p q hslot
  subst hqp
  obtain ⟨c, hc⟩ := foldl_closeStep_mem_some env objToVisit paths none q hp hacc
  obtain ⟨hA, hB, hC⟩ := foldl_closeStep_min env objToVisit paths none c hc
  exact ⟨c, hc, hpos q hp, hC q hp hacc⟩

/-- Witness for closestWay_set_for_ways at a concrete batch. -/
theorem closestWay_set_for_ways_witness :
    ∃ c, closestWayOf baseEnv none [wPath] = some c ∧
      0 < wPath.movementCost ∧ c.movementCost ≤ wPath.movementCost := by
  refine closestWay_set_for_ways baseEnv [wPath] none ?_ wPath ?_ wPath rfl
  · intro p hp
    rw [List.mem_singleton] at hp
    subst hp
    norm_num [wPath]
  · exact List.mem_singleton.mpr rfl

/-- Claim C1 (amended): given positive movement costs, every emitted
ExecuteHeroChain ratio of a getVisitGoals batch lies in (0, 1], and an
emitted route has ratio exactly 1 exactly when its movement cost attains
the minimum among all safety-accepted paths of the batch — including
accepted-but-locked paths, which update the closestWay baseline without
being emitted. -/
theorem getVisitGoals_ratio_bounds (env : Env) (paths : List AIPath)
    (objToVisit : Option CGObjectInstance)
    (hpos : ∀ p ∈ paths, 0 < p.movementCost) :
    ∀ g ∈ getVisitGoals env paths objToVisit, ∀ p t r,
      g = Goal.ExecuteHeroChain p t r →
      0 < r ∧ r ≤ 1 ∧
      (r = 1 ↔ ∀ q ∈ paths, pathAccepted env objToVisit q = true →
        p.movementCost ≤ q.movementCost) := by
  intro g hg p t r hEq
  subst hEq
  unfold getVisitGoals at hg
  obtain ⟨p0, hp0, hfin⟩ := List.mem_map.mp hg
  cases hslot : pathSlot env objToVisit p0 with
  | inv =>
    rw [hslot] at hfin
    simp [finalizeSlot] at hfin
  | comp g1 =>
    rw [hslot] at hfin
    obtain ⟨sub, hsub⟩ := pathSlot_comp env objToVisit p0 g1 hslot
    rw [show finalizeSlot objToVisit (closestWayOf env objToVisit paths) (Slot.comp g1) = g1 from rfl,
      hsub] at hfin
    exact absurd hfin (by simp)
  | way q =>
    obtain ⟨hqp, hacc⟩ := pathSlot_way env objToVisit p0 q hslot
    subst hqp
    obtain ⟨c, hc⟩ := foldl_closeStep_mem_some env objToVisit paths none q hp0 hacc
    obtain ⟨hA, hB, hC⟩ := foldl_closeStep_min env objToVisit paths none c hc
    have hcmem : c ∈ paths ∧ pathAccepted env objToVisit c = true := by
      rcases hA with h1 | h1
      · exact absurd h1 (by simp)
      · exact h1
    rw [hslot] at hfin
    have hc2 : closestWayOf env objToVisit paths = some c := hc
    rw [show finalizeSlot objToVisit (closestWayOf env objToVisit paths) (Slot.way q)
        = match closestWayOf env objToVisit paths with
          | some cw => Goal.ExecuteHeroChain q objToVisit (cw.movementCost / q.movementCost)
          | none => Goal.ExecuteHeroChain q objToVisit 0 from rfl, hc2] at hfin
    injection hfin.symm with e1 e2 e3
    rw [e1, e3]
    have hc_pos : 0 < c.movementCost := hpos c hcmem.1
    have hq_pos : 0 < q.movementCost := hpos q hp0
    have hle : c.movementCost ≤ q.movementCost := hC q hp0 hacc
    refine ⟨div_pos hc_pos hq_pos, (div_le_one hq_pos).mpr hle, ?_, ?_⟩
    · intro h1 w hw hw2
      have h3 : c.movementCost = q.movementCost := by
        have h4 := (div_eq_iff (ne_of_gt hq_pos)).mp h1
        simpa using h4
      calc q.movementCost = c.movementCost := h3.symm
        _ ≤ w.movementCost := hC w hw hw2
    · intro hmin
      have h1 : q.movementCost ≤ c.movementCost := hmin c hcmem.1 hcmem.2
      have h2 : c.movementCost = q.movementCost := le_antisymm hle h1
      rw [h2]
      exact div_self (ne_of_gt hq_pos)

/-- Witness for getVisitGoals_ratio_bounds at a concrete
single-path batch. -/
theorem getVisitGoals_ratio_bounds_witness :
    0 < wPath.movementCost / wPath.movementCost ∧
    wPath.movementCost / wPath.movementCost ≤ 1 ∧
    (wPath.movementCost / wPath.movementCost = 1 ↔
      ∀ q ∈ [wPath], pathAccepted baseEnv none q = true →
        wPath.movementCost ≤ q.movementCost) := by
  refine getVisitGoals_ratio_bounds baseEnv [wPath] none ?_
    (Goal.ExecuteHeroChain wPath none (wPath.movementCost / wPath.movementCost)) ?_
    wPath none (wPath.movementCost / wPath.movementCost) rfl
  · intro p hp
    rw [List.mem_singleton] at hp
    subst hp
    norm_num [wPath]
  · have h : getVisitGoals baseEnv [wPath] none
        = [Goal.ExecuteHeroChain wPath none (wPath.movementCost / wPath.movementCost)] := rfl
    rw [h]
    exact List.mem_singleton.mpr rfl

/-- Counterexample to claim C1 as stated: in the batch [cP1, cP2] to no
particular object, cP1 (cost 5) is safety-accepted but locked, cP2
(cost 10) is accepted and unlocked; the emitted goals are exactly one
ExecuteHeroChain whose ratio is 5/10 = 1/2 — no emitted route has ratio
exactly 1, although the batch does emit a route. -/
theorem getVisitGoals_ratio_one_fails_concrete :
    getVisitGoals cEnv [cP1, cP2] none
      = [Goal.Invalid, Goal.ExecuteHeroChain cP2 none (cP1.movementCost / cP2.movementCost)] ∧
    cP1.movementCost / cP2.movementCost = 1 / 2 ∧
    pathAccepted cEnv none cP1 = true ∧
    cP1.movementCost < cP2.movementCost ∧
    ((1 : ℚ) / 2) ≠ 1 := by
  refine ⟨rfl, ?_, rfl, ?_, ?_⟩
  · norm_num [cP1, cP2, wPath]
  · norm_num [cP1, cP2, wPath]
  · norm_num

/-- Claim C2 evaluated on the code: the source's vectorEquals tests only
whether some element of the first vector occurs in the second, so
operator== answers true for the explicit lists [oA, oB] and [oB, oC]
although they are not equal as sets (no element of the second has oA's
identity), and answers false when a behavior with an empty explicit list
is compared with itself — equality is neither set-equality nor
reflexive. -/
theorem behaviorEquals_not_setEq_concrete :
    behaviorEquals bX bY = true ∧
    (oA.id ∈ (bX.objectsToCapture.map (fun o => o.id))) ∧
    (oA.id ∉ (bY.objectsToCapture.map (fun o => o.id))) ∧
    behaviorEquals bEmptyList bEmptyList = false := by
  refine ⟨rfl, ?_, ?_, rfl⟩
  · decide
  · decide

/-- The captureObjects lambda never adds an Invalid entry to a collection
that had none: it either returns the incoming tasks untouched (empty pool)
or ends with vstd::erase_if of invalid tasks. -/
lemma captureObjects_no_invalid (env : Env) (b : CaptureObjectsBehavior)
    (objs : List CGObjectInstance) (tasks : List Goal)
    (htasks : ∀ g ∈ tasks, g.isInvalid = false) :
    ∀ g ∈ captureObjects env b objs tasks, g.isInvalid = false := by
  intro g hg
  unfold captureObjects at hg
  split at hg
  · exact htasks g hg
  · rw [List.mem_filter] at hg
    simpa using hg.2

/-- Claim C3: for every configuration and every world state, the goal
collection returned by decompose() contains zero Invalid goals. -/
theorem decompose_no_invalid (env : Env) (b : CaptureObjectsBehavior) :
    ∀ g ∈ CaptureObjectsBehavior.decompose env b, g.isInvalid = false := by
  intro g hg
  unfold CaptureObjectsBehavior.decompose at hg
  split at hg
  · exact captureObjects_no_invalid env b _ [] (by simp) g hg
  · split at hg
    · exact captureObjects_no_invalid env b _ _
        (captureObjects_no_invalid env b _ [] (by simp)) g hg
    · exact captureObjects_no_invalid env b _ [] (by simp) g hg

/-- Witness for decompose_no_invalid: a concrete decomposition pass whose
single emitted goal is checked not to be Invalid. -/
theorem decompose_no_invalid_witness :
    (Goal.ExecuteHeroChain wPath (some vObj)
      (wPath.movementCost / wPath.movementCost)).isInvalid = false := by
  apply decompose_no_invalid nEnv bF
  have h : CaptureObjectsBehavior.decompose nEnv bF
      = [Goal.ExecuteHeroChain wPath (some vObj)
          (wPath.movementCost / wPath.movementCost)] := rfl
  rw [h]
  exact List.mem_singleton.mpr rfl

/-- Claim C5: in filtered (non-explicit) mode, decompose() scans the
nearby pool first; when that scan yields at least one goal the far pool is
never consulted (the result is independent of the far pool's contents and
equals the nearby-pool goals), and when it yields zero goals the result is
the far-pool scan. -/
theorem decompose_fallback_order (env : Env) (b : CaptureObjectsBehavior)
    (hb : b.specificObjects = false) :
    ((captureObjects env b env.nearbyObjects []) ≠ [] →
      ∀ l, CaptureObjectsBehavior.decompose { env with farObjects := l } b
        = captureObjects env b env.nearbyObjects []) ∧
    ((captureObjects env b env.nearbyObjects []) = [] →
      CaptureObjectsBehavior.decompose env b
        = captureObjects env b env.farObjects []) := by
  constructor
  · intro hne l
    have hsame : captureObjects { env with farObjects := l } b
        ({ env with farObjects := l } : Env).nearbyObjects []
        = captureObjects env b env.nearbyObjects [] := rfl
    unfold CaptureObjectsBehavior.decompose
    rw [hb]
    rw [if_neg (by simp), hsame]
    rcases hl : captureObjects env b env.nearbyObjects [] with _ | ⟨g, gs⟩
    · exact absurd hl hne
    · simp
  · intro hemp
    unfold CaptureObjectsBehavior.decompose
    rw [hb, hemp]
    simp

/-- Witness for decompose_fallback_order: with a non-empty nearby scan the
result ignores an arbitrary far pool. -/
theorem decompose_fallback_order_witness :
    CaptureObjectsBehavior.decompose { nEnv with farObjects := [mkObj 8 (ObjTag.OTHER 3)] } bF
      = captureObjects nEnv bF nEnv.nearbyObjects [] := by
  apply (decompose_fallback_order nEnv bF rfl).1
  have h : captureObjects nEnv bF nEnv.nearbyObjects []
      = [Goal.ExecuteHeroChain wPath (some vObj)
          (wPath.movementCost / wPath.movementCost)] := rfl
  rw [h]
  exact List.cons_ne_nil _ _

/-- Counterexample to claim C4 as stated: for a border-guard object whose
matching keymaster tent HAS been visited (the key is unlocked), shouldVisit
returns true — the source visits exactly when the key is unlocked, not
when it is still missing. -/
theorem shouldVisit_borderguard_concrete :
    shouldVisit baseEnv (mkHero 1) kObj = true ∧
    kObj.wasMyColorVisited baseEnv.playerID = true := ⟨rfl, rfl⟩

/-- Claim C4 (amended): for every border-guard object, shouldVisit returns
true iff the unit's owning player HAS already unlocked the corresponding
key (wasMyColorVisited for the behavior's player). -/
theorem shouldVisit_borderguard_eq_keyUnlocked (env : Env) (h : Hero)
    (obj : CGObjectInstance) (hid : obj.ID = ObjTag.BORDERGUARD) :
    shouldVisit env h obj = obj.wasMyColorVisited env.playerID := by
  simp [shouldVisit, shouldVisitSwitch, hid]

/-- Witness for shouldVisit_borderguard_eq_keyUnlocked on a concrete
border guard. -/
theorem shouldVisit_borderguard_eq_keyUnlocked_witness :
    shouldVisit baseEnv (mkHero 1) kObj = kObj.wasMyColorVisited baseEnv.playerID :=
  shouldVisit_borderguard_eq_keyUnlocked baseEnv (mkHero 1) kObj rfl

/-- Claim C6: for a quest-guard or seer-hut object, if the first matching
active quest exists shouldVisit returns exactly that quest's completion
predicate applied to the unit, and if no active quest matches the object
shouldVisit returns true. -/
theorem shouldVisit_questGuard_spec (env : Env) (h : Hero)
    (obj : CGObjectInstance)
    (hid : obj.ID = ObjTag.SEER_HUT ∨ obj.ID = ObjTag.QUEST_GUARD) :
    (env.myQuests.find? (fun q => q.objId == obj.id) = none →
      shouldVisit env h obj = true) ∧
    (∀ q, env.myQuests.find? (fun q => q.objId == obj.id) = some q →
      shouldVisit env h obj = q.checkQuest h) := by
  have hsw : shouldVisit env h obj
      = match env.myQuests.find? (fun q => q.objId == obj.id) with
        | some q => q.checkQuest h
        | none => true := by
    rcases hid with hid | hid <;> simp [shouldVisit, shouldVisitSwitch, hid]
  constructor
  · intro hnone
    rw [hsw, hnone]
  · intro q hq
    rw [hsw, hq]

/-- Witness for shouldVisit_questGuard_spec: with a matching active quest
whose predicate fails, the guard is not visited (the value is the quest
predicate itself). -/
theorem shouldVisit_questGuard_spec_witness :
    shouldVisit qEnv (mkHero 1) qObj = qQuest.checkQuest (mkHero 1) :=
  (shouldVisit_questGuard_spec qEnv (mkHero 1) qObj (Or.inr rfl)).2 qQuest rfl

/-- Claim C8: the three threshold-style cases of shouldVisit fall through
to the final already-visited check when their condition passes, and return
false when it fails: magic/war school (gold at least 1000), library of
enlightenment (level at least 12), tree of knowledge (role not SCOUT, gold
at least 2000, gems at least 10). -/
theorem shouldVisit_threshold_fallthrough (env : Env) (h : Hero)
    (obj : CGObjectInstance) :
    (obj.ID = ObjTag.SCHOOL_OF_MAGIC ∨ obj.ID = ObjTag.SCHOOL_OF_WAR →
      shouldVisit env h obj
        = if env.resources.gold < 1000 then false else !(obj.visitedBy h.id)) ∧
    (obj.ID = ObjTag.LIBRARY_OF_ENLIGHTENMENT →
      shouldVisit env h obj
        = if h.level < 12 then false else !(obj.visitedBy h.id)) ∧
    (obj.ID = ObjTag.TREE_OF_KNOWLEDGE →
      shouldVisit env h obj
        = if env.heroRole h = HeroRole.SCOUT then false
          else if env.resources.gold < 2000 ∨ env.resources.gems < 10 then false
          else !(obj.visitedBy h.id)) := by
  refine ⟨?_, ?_, ?_⟩
  · intro hid
    rcases hid with hid | hid <;>
      · simp only [shouldVisit, shouldVisitSwitch, hid]
        split_ifs <;> rfl
  · intro hid
    simp only [shouldVisit, shouldVisitSwitch, hid]
    split_ifs <;> rfl
  · intro hid
    simp only [shouldVisit, shouldVisitSwitch, hid]
    split_ifs <;> rfl

/-- Witness for shouldVisit_threshold_fallthrough: a rich main hero visits
an unvisited tree of knowledge. -/
theorem shouldVisit_threshold_fallthrough_witness :
    shouldVisit baseEnv (mkHero 1) tObj = true :=
  ((shouldVisit_threshold_fallthrough baseEnv (mkHero 1) tObj).2.2 rfl).trans (by decide)

/-- Claim C7: a path whose traversing unit has role SCOUT, whose total
danger is zero, and whose exchange count exceeds one is rejected by the
path-evaluation loop — the task slot emitted for it stays Invalid —
regardless of the army-strength policy and of every other collaborator
answer. -/
theorem scout_zeroDanger_multiExchange_rejected (env : Env)
    (objToVisit : Option CGObjectInstance) (paths : List AIPath)
    (i : Nat) (p : AIPath) (hp : paths[i]? = some p)
    (hrole : env.heroRole p.targetHero = HeroRole.SCOUT)
    (hdanger : p.totalDanger = 0)
    (hexch : 1 < p.exchangeCount) :
    (getVisitGoals env paths objToVisit)[i]? = some Goal.Invalid := by
  have hslot : pathSlot env objToVisit p = Slot.inv := by
    unfold pathSlot
    split
    · rfl
    · split
      · rfl
      · exact if_pos ⟨hrole, hdanger, hexch⟩
  unfold getVisitGoals
  rw [List.getElem?_map, hp]
  simp [finalizeSlot, hslot]

/-- Witness for scout_zeroDanger_multiExchange_rejected on a concrete
zero-danger two-exchange scout path. -/
theorem scout_zeroDanger_multiExchange_rejected_witness :
    (getVisitGoals sEnv [sPath] none)[0]? = some Goal.Invalid :=
  scout_zeroDanger_multiExchange_rejected sEnv none [sPath] 0 sPath rfl rfl rfl
    (by norm_num [sPath, wPath])

/-- Claim C9: a path passing the earlier gates whose final step carries a
blocking special action is settled by the route decomposer alone: if the
action's decomposition is not Invalid the slot becomes the Composition
(route then sub-goal), otherwise it stays Invalid; in both cases the path
never updates the closestWay baseline, its outcome never consults the
isSafeToVisit policy, and the emitted goal of a successful decomposition
is the Composition itself (no closeness ratio is assigned to it). -/
theorem blockedAction_composition_spec (env : Env)
    (objToVisit : Option CGObjectInstance) (p : AIPath) (act : Nat)
    (hact : p.firstBlockedAction = some act)
    (hkill : env.enemyCanKill p = false)
    (hgate : objGateFails env objToVisit p = false)
    (hscout : ¬(env.heroRole p.targetHero = HeroRole.SCOUT ∧
      p.totalDanger = 0 ∧ p.exchangeCount > 1)) :
    ((env.actionDecompose act p.targetHero).isInvalid = false →
      pathSlot env objToVisit p
        = Slot.comp (Goal.Composition p objToVisit (env.actionDecompose act p.targetHero))) ∧
    ((env.actionDecompose act p.targetHero).isInvalid = true →
      pathSlot env objToVisit p = Slot.inv) ∧
    pathAccepted env objToVisit p = false ∧
    (∀ closest, (env.actionDecompose act p.targetHero).isInvalid = false →
      finalizeSlot objToVisit closest (pathSlot env objToVisit p)
        = Goal.Composition p objToVisit (env.actionDecompose act p.targetHero)) ∧
    (∀ f, pathSlot (Env.withSafe env f) objToVisit p = pathSlot env objToVisit p ∧
      pathAccepted (Env.withSafe env f) objToVisit p = false) := by
  have hred : pathSlot env objToVisit p
      = if (env.actionDecompose act p.targetHero).isInvalid then Slot.inv
        else Slot.comp (Goal.Composition p objToVisit (env.actionDecompose act p.targetHero)) := by
    unfold pathSlot
    rw [if_neg (by simp [hkill]), if_neg (by simp [hgate]), if_neg hscout, hact]
  refine ⟨?_, ?_, pathAccepted_blocked env objToVisit p act hact, ?_, ?_⟩
  · intro hsub
    rw [hred, if_neg (by simp [hsub])]
  · intro hsub
    rw [hred, if_pos hsub]
  · intro closest hsub
    rw [hred, if_neg (by simp [hsub])]
    rfl
  · intro f
    exact ⟨pathSlot_blocked_safeIrrel env f objToVisit p act hact,
      pathAccepted_blocked (Env.withSafe env f) objToVisit p act hact⟩

/-- Witness for blockedAction_composition_spec on a concrete blocked path
with a valid sub-goal. -/
theorem blockedAction_composition_spec_witness :
    pathSlot blkEnv none blkPath
      = Slot.comp (Goal.Composition blkPath none (blkEnv.actionDecompose 3 blkPath.targetHero)) :=
  (blockedAction_composition_spec blkEnv none blkPath 3 rfl rfl rfl (by decide)).1 rfl

end VCMI
